import Mathlib

/-!
Shallow embedding of tracker/utils/pdf_signature.py.

Byte buffers are modelled as lists of bytes; only emptiness and identity
matter to the logic under verification.  The external collaborators --
the PDF codec (PyPDF2), the image codec (PIL) and the vector drawing
surface (reportlab) -- are modelled as function parameters and small
records: a parsed PDF is an ordered list of pages carrying a media box
and the list of overlay layers merged onto them; a decoded image is a
record of pixel size, color mode and detected format.  Python floats are
modelled as exact rationals and Python ints as integers.
-/

/-- Byte buffer; pipelines inspect only emptiness and pass it to codecs. -/
abbrev ByteBuf := List ℕ

deriving instance DecidableEq for Except

/-- A decoded raster image as the image codec (PIL) reports it: pixel
size, color mode string and the detected source format (none when the
codec could not tell). -/
structure DecodedImage where
  width : ℕ
  height : ℕ
  mode : String
  format : Option String
deriving DecidableEq

/-- Image.convert: the same raster re-expressed in the given color mode;
pixel dimensions are unchanged. -/
def DecodedImage.convert (img : DecodedImage) (m : String) : DecodedImage :=
  { img with mode := m }

/-- Embedding of the private scaler (pdf_signature.py lines 18-40).
Rejects non-positive signature dimensions, then scales by the minimum of
the two independent target ratios. -/
def scale_dimensions (page_width page_height : ℚ)
    (image_width image_height : ℤ)
    (max_width_ratio max_height_ratio : ℚ) : Except String (ℚ × ℚ) :=
  if image_width ≤ 0 ∨ image_height ≤ 0 then
    .error "Signature image has invalid dimensions."
  else
    let target_width := page_width * max_width_ratio
    let target_height := page_height * max_height_ratio
    let width_ratio := target_width / (image_width : ℚ)
    let height_ratio := target_height / (image_height : ℚ)
    let scale := min width_ratio height_ratio
    let scaled_width := (image_width : ℚ) * scale
    let scaled_height := (image_height : ℚ) * scale
    .ok (scaled_width, scaled_height)

/-- The single page produced by the reportlab overlay canvas: a page of
the given size on which one image was drawn at the given position and
size (lines 92-101). -/
structure OverlayDraw where
  page_width : ℚ
  page_height : ℚ
  img_x : ℚ
  img_y : ℚ
  img_width : ℚ
  img_height : ℚ
deriving DecidableEq

/-- A PDF page: media-box size, an opaque content identifier, and the
overlay layers that have been merged onto it, in merge order. -/
structure PdfPage where
  box_width : ℚ
  box_height : ℚ
  content : ℕ
  overlays : List OverlayDraw
deriving DecidableEq

/-- PageObject.merge_page: stacks the overlay content onto the page. -/
def PdfPage.merge_page (p : PdfPage) (ov : OverlayDraw) : PdfPage :=
  { p with overlays := p.overlays ++ [ov] }

/-- A parsed PDF document: its ordered page list. -/
structure PdfDocument where
  pages : List PdfPage
deriving DecidableEq

/-- Embedding of embed_signature_in_pdf (lines 43-117).  The byte-level
codecs are parameters: read_pdf is PdfReader (none for a parse failure),
open_image is Image.open (none for a decode failure).  The writer output
is its page list; serialization back to bytes is the external codec. -/
def embed_signature_in_pdf
    (read_pdf : ByteBuf → Option PdfDocument)
    (open_image : ByteBuf → Option DecodedImage)
    (pdf_bytes signature_bytes : ByteBuf)
    (margin max_width_ratio max_height_ratio : ℚ) :
    Except String (List PdfPage) :=
  if pdf_bytes = [] then .error "No PDF content provided."
  else if signature_bytes = [] then .error "No signature content provided."
  else
    match read_pdf pdf_bytes with
    | none => .error "Could not read the provided PDF document."
    | some reader =>
      -- len(reader.pages) == 0
      if hpages : reader.pages = [] then .error "The PDF has no pages to sign."
      else
        match open_image signature_bytes with
        | none => .error "Could not decode the signature image."
        | some sig =>
          let signature_image := sig.convert "RGBA"
          let last_page := reader.pages.getLast hpages
          let page_width := last_page.box_width
          let page_height := last_page.box_height
          match scale_dimensions page_width page_height
              (signature_image.width : ℤ) (signature_image.height : ℤ)
              max_width_ratio max_height_ratio with
          | .error e => .error e
          | .ok (scaled_width, scaled_height) =>
            let x_position := max margin (page_width - scaled_width - margin)
            let y_position := margin
            let overlay_page : OverlayDraw :=
              { page_width := page_width, page_height := page_height,
                img_x := x_position, img_y := y_position,
                img_width := scaled_width, img_height := scaled_height }
            let total_pages := reader.pages.length
            .ok (reader.pages.enum.map fun ip =>
              if ip.1 = total_pages - 1 then ip.2.merge_page overlay_page
              else ip.2)

/-- Python str.upper restricted to the ASCII names handled here,
written over the character list so that it evaluates. -/
def py_upper (s : String) : String :=
  String.mk (s.toList.map Char.toUpper)

/-- Line 172: (base_img.format or "").upper() or None. -/
def detected_format (img : DecodedImage) : Option String :=
  match img.format with
  | none => none
  | some f => if py_upper f = "" then none else some (py_upper f)

/-- Lines 200-202: uppercase the chosen format name, then map the
synonym JPG to JPEG. -/
def normalize_format (s : String) : String :=
  let fmt := py_upper s
  if fmt = "JPG" then "JPEG" else fmt

/-- Lines 192-197 as a pair: the final color mode of the composite and
the detected format, which is defaulted to PNG only in the fallback
branch where the original mode is neither RGBA nor RGB nor L. -/
def reconcile_mode (base_mode : String) (base_format : Option String) :
    String × Option String :=
  if base_mode ≠ "RGBA" then
    if base_mode = "RGB" ∨ base_mode = "L" then (base_mode, base_format)
    else ("RGB", some (base_format.getD "PNG"))
  else (base_mode, base_format)

/-- Line 200 before the upper call: output_format or base_format or
PNG, under Python truthiness, so an empty requested string falls
through to the detected format. -/
def choose_format (output_format base_format : Option String) : String :=
  match output_format with
  | some s => if s = "" then base_format.getD "PNG" else s
  | none => base_format.getD "PNG"

/-- Result of the image pipeline: the composited raster keeps the base
size; the record carries its final color mode, the resized signature
size, the placement offsets x and y of lines 184-185, the integer paste
position of line 189, and the encode format of line 203. -/
structure ImageResult where
  width : ℕ
  height : ℕ
  mode : String
  sig_width : ℤ
  sig_height : ℤ
  x : ℚ
  y : ℚ
  paste_pos : ℤ × ℤ
  fmt : String
deriving DecidableEq

/-- Embedding of embed_signature_in_image (lines 141-205).  open_base
and open_sig stand for the two Image.open calls (none for a decode
failure).  Encoding the composited raster to bytes is the external
codec; the returned record is what that encoder is handed. -/
def embed_signature_in_image
    (open_base open_sig : ByteBuf → Option DecodedImage)
    (image_bytes signature_bytes : ByteBuf)
    (margin : ℤ) (max_width_ratio max_height_ratio : ℚ)
    (output_format : Option String) :
    Except String ImageResult :=
  if image_bytes = [] then .error "No image content provided."
  else if signature_bytes = [] then .error "No signature content provided."
  else
    match open_base image_bytes with
    | none => .error "Could not read the provided image document."
    | some base_raw =>
      match open_sig signature_bytes with
      | none => .error "Could not decode the signature image."
      | some sig_raw =>
        let sig_img := sig_raw.convert "RGBA"
        let base_mode := base_raw.mode
        let base_format := detected_format base_raw
        let base_img := base_raw.convert "RGBA"
        let page_w : ℚ := base_img.width
        let page_h : ℚ := base_img.height
        match scale_dimensions page_w page_h
            (sig_img.width : ℤ) (sig_img.height : ℤ)
            max_width_ratio max_height_ratio with
        | .error e => .error e
        | .ok (scaled_w, scaled_h) =>
          -- sig_resized = sig_img.resize(int(max(1, scaled_w)), int(max(1, scaled_h)))
          let sig_w : ℤ := Int.floor (max 1 scaled_w)
          let sig_h : ℤ := Int.floor (max 1 scaled_h)
          let x : ℚ := max (margin : ℚ) (page_w - (sig_w : ℚ) - (margin : ℚ))
          let y : ℚ := max (margin : ℚ) (page_h - (sig_h : ℚ) - (margin : ℚ))
          let reconciled := reconcile_mode base_mode base_format
          let fmt0 := choose_format output_format reconciled.2
          .ok { width := base_img.width, height := base_img.height,
                mode := reconciled.1,
                sig_width := sig_w, sig_height := sig_h,
                x := x, y := y,
                paste_pos := (Int.floor x, Int.floor y),
                fmt := normalize_format fmt0 }

/-- Split a character list at every occurrence of the separator,
keeping empty pieces, as Python str.split does. -/
def split_on_sep (sep : Char) : List Char → List (List Char)
  | [] => [[]]
  | c :: rest =>
    let r := split_on_sep sep rest
    if c = sep then [] :: r
    else (c :: r.headD []) :: r.tail

/-- Final path component under PurePosixPath semantics: split on the
separator, drop empty and single-dot components, take the last one. -/
def path_name (s : String) : String :=
  let parts := (split_on_sep '/' s.toList).filter fun c => !c.isEmpty && c != ['.']
  String.mk (parts.getLastD [])

/-- Position of the last dot of the name (str.rfind), none when absent. -/
def last_dot_index (cs : List Char) : Option ℕ :=
  (List.range cs.length).foldl
    (fun acc i => if cs.get? i = some '.' then some i else acc) none

/-- Path.stem: the final component without its extension.  CPython keeps
everything before the last dot when that dot is neither the first nor
the last character of the name. -/
def path_stem (s : String) : String :=
  let nm := path_name s
  let cs := nm.toList
  match last_dot_index cs with
  | some i => if 0 < i ∧ i < cs.length - 1 then String.mk (cs.take i) else nm
  | none => nm

/-- Path.suffix: the extension of the final component, dot included,
under the same last-dot rule as the stem. -/
def path_suffix (s : String) : String :=
  let nm := path_name s
  let cs := nm.toList
  match last_dot_index cs with
  | some i => if 0 < i ∧ i < cs.length - 1 then String.mk (cs.drop i) else ""
  | none => ""

/-- Python str.startswith for the single-dot case, over the character
list so that it evaluates. -/
def starts_with_dot (s : String) : Bool :=
  match s.toList with
  | [] => false
  | c :: _ => c = '.'

/-- Embedding of build_signed_filename (lines 120-123); an empty
original name is Python-falsy and replaced by the word document. -/
def build_signed_filename (original_name : String) (suffix : String) : String :=
  let base0 := path_stem (if original_name = "" then "document" else original_name)
  let base := if base0 = "" then "document" else base0
  base ++ "-" ++ suffix ++ ".pdf"

/-- Embedding of build_signed_name (lines 126-138).  A supplied
preferred extension wins when truthy, gaining a leading dot if it lacks
one; otherwise the original extension, falling back to .bin. -/
def build_signed_name (original_name : String) (suffix : String)
    (preferred_ext : Option String) : String :=
  let pstr := if original_name = "" then "document" else original_name
  let base0 := path_stem pstr
  let base := if base0 = "" then "document" else base0
  let ext :=
    match preferred_ext with
    | some e =>
      if e = "" then (let sfx := path_suffix pstr; if sfx = "" then ".bin" else sfx)
      else if starts_with_dot e then e else "." ++ e
    | none => (let sfx := path_suffix pstr; if sfx = "" then ".bin" else sfx)
  base ++ "-" ++ suffix ++ ext

@[simp] theorem DecodedImage.convert_width (img : DecodedImage) (m : String) :
    (img.convert m).width = img.width := rfl

@[simp] theorem DecodedImage.convert_height (img : DecodedImage) (m : String) :
    (img.convert m).height = img.height := rfl

/-- The writer loop of lines 107-112 as a combinator: apply f to the
entry whose index equals the final index, keep every other entry. -/
def stamp_last {α : Type} (f : α → α) (l : List α) : List α :=
  l.enum.map fun ip => if ip.1 = l.length - 1 then f ip.2 else ip.2

/-- Length is preserved by the stamp-the-last-page loop of lines 109-112. -/
theorem stamp_last_length {α : Type} (f : α → α) (l : List α) :
    (stamp_last f l).length = l.length := by
  simp [stamp_last, List.enum_length]

/-- Entries before the last are untouched by the stamp loop. -/
theorem stamp_last_getElem_of_lt {α : Type} (f : α → α) (l : List α) (i : ℕ)
    (h : i < l.length - 1) :
    (stamp_last f l)[i]? = l[i]? := by
  rw [stamp_last, List.getElem?_map, List.getElem?_enum]
  rcases hl : l[i]? with _ | a
  · rfl
  · simp [Nat.ne_of_lt h]

/-- The stamp loop applies f to the last entry. -/
theorem stamp_last_getLast {α : Type} (f : α → α) (l : List α) (h : l ≠ []) :
    (stamp_last f l).getLast? = some (f (l.getLast h)) := by
  have hlen : l.length - 1 < l.length := by
    cases l with
    | nil => exact absurd rfl h
    | cons a t => simp
  rw [List.getLast?_eq_getElem?, stamp_last_length, stamp_last,
    List.getElem?_map, List.getElem?_enum, List.getElem?_eq_getElem hlen]
  simp [List.getLast_eq_getElem]

/-- C1: for positive canvas dimensions, positive signature dimensions
and positive fractional bounds, the Dimension Scaler succeeds, its
output has exactly the aspect ratio of the input image, both fractional
bounds hold, and at least one of them is attained. -/
theorem scale_dimensions_correct
    (cw ch mwr mhr : ℚ) (iw ih : ℤ)
    (hcw : 0 < cw) (hch : 0 < ch) (hiw : 0 < iw) (hih : 0 < ih)
    (hmw : 0 < mwr) (hmh : 0 < mhr) :
    ∃ sw sh : ℚ,
      scale_dimensions cw ch iw ih mwr mhr = .ok (sw, sh) ∧
      sw / sh = (iw : ℚ) / (ih : ℚ) ∧
      sw ≤ cw * mwr ∧ sh ≤ ch * mhr ∧
      (sw = cw * mwr ∨ sh = ch * mhr) := by
  have hiwQ : (0 : ℚ) < (iw : ℚ) := by exact_mod_cast hiw
  have hihQ : (0 : ℚ) < (ih : ℚ) := by exact_mod_cast hih
  have hguard : ¬(iw ≤ 0 ∨ ih ≤ 0) := by push_neg; exact ⟨hiw, hih⟩
  set wr : ℚ := cw * mwr / (iw : ℚ) with hwr_def
  set hr : ℚ := ch * mhr / (ih : ℚ) with hhr_def
  have hwr : 0 < wr := div_pos (mul_pos hcw hmw) hiwQ
  have hhr : 0 < hr := div_pos (mul_pos hch hmh) hihQ
  have hsc : 0 < min wr hr := lt_min hwr hhr
  refine ⟨(iw : ℚ) * min wr hr, (ih : ℚ) * min wr hr, ?_, ?_, ?_, ?_, ?_⟩
  · unfold scale_dimensions
    rw [if_neg hguard]
  · rw [mul_comm ((iw : ℚ)) (min wr hr), mul_comm ((ih : ℚ)) (min wr hr),
      mul_div_mul_left _ _ (ne_of_gt hsc)]
  · have h1 : (iw : ℚ) * min wr hr ≤ (iw : ℚ) * wr :=
      mul_le_mul_of_nonneg_left (min_le_left _ _) hiwQ.le
    have h2 : (iw : ℚ) * wr = cw * mwr := by
      rw [hwr_def, mul_comm, div_mul_cancel₀ _ (ne_of_gt hiwQ)]
    exact h1.trans_eq h2
  · have h1 : (ih : ℚ) * min wr hr ≤ (ih : ℚ) * hr :=
      mul_le_mul_of_nonneg_left (min_le_right _ _) hihQ.le
    have h2 : (ih : ℚ) * hr = ch * mhr := by
      rw [hhr_def, mul_comm, div_mul_cancel₀ _ (ne_of_gt hihQ)]
    exact h1.trans_eq h2
  · rcases le_total wr hr with hle | hle
    · left
      rw [min_eq_left hle, hwr_def, mul_comm, div_mul_cancel₀ _ (ne_of_gt hiwQ)]
    · right
      rw [min_eq_right hle, hhr_def, mul_comm, div_mul_cancel₀ _ (ne_of_gt hihQ)]

/-- C1 witness: the US-Letter example from the spec, 612 by 792 canvas
and a 300 by 100 signature with the default bounds. -/
theorem scale_dimensions_correct_witness :
    ∃ sw sh : ℚ,
      scale_dimensions 612 792 300 100 (3/10) (1/5) = .ok (sw, sh) ∧
      sw / sh = ((300 : ℤ) : ℚ) / ((100 : ℤ) : ℚ) ∧
      sw ≤ 612 * (3/10) ∧ sh ≤ 792 * (1/5) ∧
      (sw = 612 * (3/10) ∨ sh = 792 * (1/5)) :=
  scale_dimensions_correct 612 792 (3/10) (1/5) 300 100
    (by norm_num) (by norm_num) (by norm_num) (by norm_num)
    (by norm_num) (by norm_num)

/-- C7: the scaler reports the invalid-dimensions error exactly when
one of the signature dimensions is non-positive; the guard precedes all
arithmetic, so positive dimensions always reach the ok branch. -/
theorem scale_dimensions_error_iff
    (cw ch mwr mhr : ℚ) (iw ih : ℤ) :
    scale_dimensions cw ch iw ih mwr mhr
      = .error "Signature image has invalid dimensions."
      ↔ (iw ≤ 0 ∨ ih ≤ 0) := by
  constructor
  · intro h
    by_contra hc
    rw [scale_dimensions, if_neg hc] at h
    exact Except.noConfusion h
  · intro h
    rw [scale_dimensions, if_pos h]

/-- C9: the Naming Helper is total with shape stem-suffix-extension and
matches the three documented examples. -/
theorem build_signed_name_examples :
    build_signed_name "report.doc" "signed" none = "report-signed.doc" ∧
    build_signed_name "" "signed" none = "document-signed.bin" ∧
    build_signed_name "a.txt" "signed" (some "pdf") = "a-signed.pdf" ∧
    ∀ (n s : String) (e : Option String), ∃ stem ext : String,
      build_signed_name n s e = stem ++ "-" ++ s ++ ext := by
  refine ⟨by decide, by decide, by decide, ?_⟩
  intro n s e
  exact ⟨_, _, rfl⟩

/-- C10: the legacy PDF-only naming helper agrees with the general one
specialised to the pdf extension, for every name and suffix. -/
theorem build_signed_filename_refines (n s : String) :
    build_signed_filename n s = build_signed_name n s (some "pdf") := rfl

/-- Fixture: one-page US-Letter document with empty page content. -/
def sample_doc : PdfDocument := ⟨[⟨612, 792, 0, []⟩]⟩

/-- Fixture: a 300 by 100 pixel RGB signature raster. -/
def sample_sig : DecodedImage := ⟨300, 100, "RGB", some "PNG"⟩

/-- Fixture PDF codec returning the one-page document. -/
def sample_read_pdf : ByteBuf → Option PdfDocument := fun _ => some sample_doc

/-- Fixture image codec returning the signature raster. -/
def sample_open_image : ByteBuf → Option DecodedImage := fun _ => some sample_sig

/-- Fixture PDF codec returning a document with no pages. -/
def empty_doc_reader : ByteBuf → Option PdfDocument := fun _ => some ⟨[]⟩

/-- C8: an empty document buffer or an empty signature buffer fails with
the matching empty-input message in both pipelines, whatever the codecs
would have answered; and a parsed document with zero pages fails with
the no-pages message. -/
theorem empty_inputs_and_no_pages_error :
    (∀ read_pdf open_image sig_bytes (margin mwr mhr : ℚ),
      embed_signature_in_pdf read_pdf open_image [] sig_bytes margin mwr mhr
        = .error "No PDF content provided.") ∧
    (∀ read_pdf open_image pdf_bytes (margin mwr mhr : ℚ), pdf_bytes ≠ [] →
      embed_signature_in_pdf read_pdf open_image pdf_bytes [] margin mwr mhr
        = .error "No signature content provided.") ∧
    (∀ open_base open_sig sig_bytes (margin : ℤ) (mwr mhr : ℚ) ofmt,
      embed_signature_in_image open_base open_sig [] sig_bytes margin mwr mhr ofmt
        = .error "No image content provided.") ∧
    (∀ open_base open_sig image_bytes (margin : ℤ) (mwr mhr : ℚ) ofmt,
      image_bytes ≠ [] →
      embed_signature_in_image open_base open_sig image_bytes [] margin mwr mhr ofmt
        = .error "No signature content provided.") ∧
    (∀ read_pdf open_image pdf_bytes sig_bytes (margin mwr mhr : ℚ)
      (doc : PdfDocument), pdf_bytes ≠ [] → sig_bytes ≠ [] →
      read_pdf pdf_bytes = some doc → doc.pages = [] →
      embed_signature_in_pdf read_pdf open_image pdf_bytes sig_bytes margin mwr mhr
        = .error "The PDF has no pages to sign.") := by
  refine ⟨?_, ?_, ?_, ?_, ?_⟩
  · intro read_pdf open_image sig_bytes margin mwr mhr
    rw [embed_signature_in_pdf, if_pos rfl]
  · intro read_pdf open_image pdf_bytes margin mwr mhr h
    rw [embed_signature_in_pdf, if_neg h, if_pos rfl]
  · intro open_base open_sig sig_bytes margin mwr mhr ofmt
    rw [embed_signature_in_image, if_pos rfl]
  · intro open_base open_sig image_bytes margin mwr mhr ofmt h
    rw [embed_signature_in_image, if_neg h, if_pos rfl]
  · intro read_pdf open_image pdf_bytes sig_bytes margin mwr mhr doc h1 h2 hread hp
    rw [embed_signature_in_pdf, if_neg h1, if_neg h2, hread]
    simp only [hp]
    exact dif_pos trivial

/-- C8 witness: concrete empty buffers against the fixture codecs, and
the zero-page fixture document. -/
theorem empty_inputs_and_no_pages_error_witness :
    embed_signature_in_pdf sample_read_pdf sample_open_image [] [1] 36 (3/10) (1/5)
      = .error "No PDF content provided." ∧
    embed_signature_in_pdf sample_read_pdf sample_open_image [0] [] 36 (3/10) (1/5)
      = .error "No signature content provided." ∧
    embed_signature_in_image sample_open_image sample_open_image [] [1] 12 (3/10) (1/5) none
      = .error "No image content provided." ∧
    embed_signature_in_image sample_open_image sample_open_image [0] [] 12 (3/10) (1/5) none
      = .error "No signature content provided." ∧
    embed_signature_in_pdf empty_doc_reader sample_open_image [0] [1] 36 (3/10) (1/5)
      = .error "The PDF has no pages to sign." :=
  ⟨empty_inputs_and_no_pages_error.1 _ _ _ _ _ _,
   empty_inputs_and_no_pages_error.2.1 _ _ _ _ _ _ (by decide),
   empty_inputs_and_no_pages_error.2.2.1 _ _ _ _ _ _ _,
   empty_inputs_and_no_pages_error.2.2.2.1 _ _ _ _ _ _ _ (by decide),
   empty_inputs_and_no_pages_error.2.2.2.2 _ _ _ _ _ _ _ ⟨[]⟩
     (by decide) (by decide) rfl rfl⟩

/-- Inversion of a successful PDF run: the output is exactly the input
page list with the positioned overlay merged onto the last entry. -/
theorem embed_pdf_ok_elim
    (read_pdf : ByteBuf → Option PdfDocument)
    (open_image : ByteBuf → Option DecodedImage)
    (pdf_bytes signature_bytes : ByteBuf)
    (margin mwr mhr : ℚ) (doc : PdfDocument) (out : List PdfPage)
    (hread : read_pdf pdf_bytes = some doc)
    (hok : embed_signature_in_pdf read_pdf open_image pdf_bytes signature_bytes
        margin mwr mhr = .ok out) :
    ∃ (img : DecodedImage) (hne : doc.pages ≠ []) (sw sh : ℚ),
      open_image signature_bytes = some img ∧
      scale_dimensions (doc.pages.getLast hne).box_width
        (doc.pages.getLast hne).box_height
        (img.width : ℤ) (img.height : ℤ) mwr mhr = .ok (sw, sh) ∧
      out = stamp_last
        (fun p => p.merge_page
          { page_width := (doc.pages.getLast hne).box_width,
            page_height := (doc.pages.getLast hne).box_height,
            img_x := max margin ((doc.pages.getLast hne).box_width - sw - margin),
            img_y := margin,
            img_width := sw, img_height := sh })
        doc.pages := by
  simp only [embed_signature_in_pdf, hread] at hok
  split at hok
  · exact absurd hok (by simp)
  split at hok
  · exact absurd hok (by simp)
  split at hok
  · exact absurd hok (by simp)
  next hne =>
  split at hok
  · exact absurd hok (by simp)
  next sig hsig =>
  split at hok
  · exact absurd hok (by simp)
  next sw sh hscale =>
  simp only [Except.ok.injEq] at hok
  simp only [DecodedImage.convert_width, DecodedImage.convert_height] at hscale
  exact ⟨sig, hne, sw, sh, hsig, hscale, hok.symm⟩

/-- C2: on every successful PDF run the overlay merged onto the last
page is drawn at x = max(margin, pageWidth - scaledWidth - margin) and
y = margin, with x never below the margin. -/
theorem embed_pdf_placement
    (read_pdf : ByteBuf → Option PdfDocument)
    (open_image : ByteBuf → Option DecodedImage)
    (pdf_bytes signature_bytes : ByteBuf)
    (margin mwr mhr : ℚ)
    (doc : PdfDocument) (img : DecodedImage) (out : List PdfPage) (sw sh : ℚ)
    (hread : read_pdf pdf_bytes = some doc)
    (himg : open_image signature_bytes = some img)
    (hne : doc.pages ≠ [])
    (hscale : scale_dimensions (doc.pages.getLast hne).box_width
        (doc.pages.getLast hne).box_height
        (img.width : ℤ) (img.height : ℤ) mwr mhr = .ok (sw, sh))
    (hok : embed_signature_in_pdf read_pdf open_image pdf_bytes signature_bytes
        margin mwr mhr = .ok out) :
    ∃ ov : OverlayDraw,
      out.getLast? = some ((doc.pages.getLast hne).merge_page ov) ∧
      ov.img_x = max margin ((doc.pages.getLast hne).box_width - sw - margin) ∧
      ov.img_y = margin ∧
      ov.img_width = sw ∧ ov.img_height = sh ∧
      margin ≤ ov.img_x := by
  obtain ⟨img2, hne2, sw2, sh2, himg2, hscale2, hout⟩ :=
    embed_pdf_ok_elim read_pdf open_image pdf_bytes signature_bytes margin
      mwr mhr doc out hread hok
  obtain rfl : img = img2 := Option.some.inj (himg.symm.trans himg2)
  have hpair : ((sw, sh) : ℚ × ℚ) = (sw2, sh2) :=
    Except.ok.inj (hscale.symm.trans hscale2)
  injection hpair with h1 h2
  subst h1
  subst h2
  subst hout
  refine ⟨_, stamp_last_getLast _ doc.pages hne, rfl, rfl, rfl, rfl,
    le_max_left _ _⟩

/-- Fixture: the overlay the pipeline draws for the US-Letter example. -/
def sample_overlay : OverlayDraw := ⟨612, 792, 1962/5, 36, 918/5, 306/5⟩

/-- Fixture: expected output page list for the US-Letter example. -/
def sample_out : List PdfPage := [⟨612, 792, 0, [sample_overlay]⟩]

/-- The fixture document has a page. -/
theorem sample_doc_ne : sample_doc.pages ≠ [] := by decide

/-- The US-Letter example run succeeds and yields the expected page. -/
theorem sample_pdf_run :
    embed_signature_in_pdf sample_read_pdf sample_open_image [0] [1] 36 (3/10) (1/5)
      = .ok sample_out := by
  norm_num [embed_signature_in_pdf, scale_dimensions, sample_read_pdf,
    sample_open_image, sample_doc, sample_sig, sample_out, sample_overlay,
    DecodedImage.convert, PdfPage.merge_page, List.enum, List.enumFrom, min_def]

/-- C2 witness: the US-Letter example of the spec; the placement
evaluates to x = 392.4 and y = 36 with scaled size 183.6 by 61.2. -/
theorem embed_pdf_placement_witness :
    (∃ ov : OverlayDraw,
      sample_out.getLast?
        = some ((sample_doc.pages.getLast sample_doc_ne).merge_page ov) ∧
      ov.img_x = max 36 ((sample_doc.pages.getLast sample_doc_ne).box_width
        - 918/5 - 36) ∧
      ov.img_y = 36 ∧
      ov.img_width = 918/5 ∧ ov.img_height = 306/5 ∧
      (36 : ℚ) ≤ ov.img_x) ∧
    max (36 : ℚ) ((sample_doc.pages.getLast sample_doc_ne).box_width
      - 918/5 - 36) = 392.4 ∧
    (918/5 : ℚ) = 183.6 ∧ (306/5 : ℚ) = 61.2 :=
  ⟨embed_pdf_placement sample_read_pdf sample_open_image [0] [1] 36 (3/10) (1/5)
      sample_doc sample_sig sample_out (918/5) (306/5) rfl rfl sample_doc_ne
      (by norm_num [scale_dimensions, sample_sig, sample_doc, min_def])
      sample_pdf_run,
   by norm_num [sample_doc],
   by norm_num, by norm_num⟩

/-- C3: a successful PDF run preserves page count and order: every page
before the last is returned unchanged and the output last page is the
input last page with one extra merged overlay. -/
theorem embed_pdf_frame
    (read_pdf : ByteBuf → Option PdfDocument)
    (open_image : ByteBuf → Option DecodedImage)
    (pdf_bytes signature_bytes : ByteBuf)
    (margin mwr mhr : ℚ) (doc : PdfDocument) (out : List PdfPage)
    (hread : read_pdf pdf_bytes = some doc)
    (hok : embed_signature_in_pdf read_pdf open_image pdf_bytes signature_bytes
        margin mwr mhr = .ok out) :
    out.length = doc.pages.length ∧
    (∀ i : ℕ, i < doc.pages.length - 1 → out[i]? = doc.pages[i]?) ∧
    ∀ hne : doc.pages ≠ [], ∃ ov : OverlayDraw,
      out.getLast? = some ((doc.pages.getLast hne).merge_page ov) := by
  obtain ⟨img, hne, sw, sh, himg, hscale, hout⟩ :=
    embed_pdf_ok_elim read_pdf open_image pdf_bytes signature_bytes margin
      mwr mhr doc out hread hok
  subst hout
  refine ⟨stamp_last_length _ doc.pages,
    fun i hi => stamp_last_getElem_of_lt _ doc.pages i hi,
    fun hne2 => ⟨_, stamp_last_getLast _ doc.pages hne2⟩⟩

/-- C3 witness: the one-page fixture run keeps the page count at one
and returns the input page with the overlay merged on. -/
theorem embed_pdf_frame_witness :
    sample_out.length = sample_doc.pages.length ∧
    (∀ i : ℕ, i < sample_doc.pages.length - 1 →
      sample_out[i]? = sample_doc.pages[i]?) ∧
    ∀ hne : sample_doc.pages ≠ [], ∃ ov : OverlayDraw,
      sample_out.getLast? = some ((sample_doc.pages.getLast hne).merge_page ov) :=
  embed_pdf_frame sample_read_pdf sample_open_image [0] [1] 36 (3/10) (1/5)
    sample_doc sample_out rfl sample_pdf_run

/-- Inversion of a successful image run: the returned record is exactly
the one assembled at the end of lines 182-203. -/
theorem embed_image_ok_elim
    (open_base open_sig : ByteBuf → Option DecodedImage)
    (image_bytes signature_bytes : ByteBuf)
    (margin : ℤ) (mwr mhr : ℚ) (ofmt : Option String)
    (base : DecodedImage) (res : ImageResult)
    (hbase : open_base image_bytes = some base)
    (hok : embed_signature_in_image open_base open_sig image_bytes signature_bytes
        margin mwr mhr ofmt = .ok res) :
    ∃ (sig : DecodedImage) (sw sh : ℚ),
      open_sig signature_bytes = some sig ∧
      scale_dimensions (base.width : ℚ) (base.height : ℚ)
        (sig.width : ℤ) (sig.height : ℤ) mwr mhr = .ok (sw, sh) ∧
      res = { width := base.width, height := base.height,
              mode := (reconcile_mode base.mode (detected_format base)).1,
              sig_width := Int.floor (max 1 sw),
              sig_height := Int.floor (max 1 sh),
              x := max (margin : ℚ)
                ((base.width : ℚ) - ((Int.floor (max 1 sw) : ℤ) : ℚ) - (margin : ℚ)),
              y := max (margin : ℚ)
                ((base.height : ℚ) - ((Int.floor (max 1 sh) : ℤ) : ℚ) - (margin : ℚ)),
              paste_pos :=
                (Int.floor (max (margin : ℚ)
                  ((base.width : ℚ) - ((Int.floor (max 1 sw) : ℤ) : ℚ) - (margin : ℚ))),
                 Int.floor (max (margin : ℚ)
                  ((base.height : ℚ) - ((Int.floor (max 1 sh) : ℤ) : ℚ) - (margin : ℚ)))),
              fmt := normalize_format (choose_format ofmt
                (reconcile_mode base.mode (detected_format base)).2) } := by
  simp only [embed_signature_in_image, hbase] at hok
  split at hok
  · exact absurd hok (by simp)
  split at hok
  · exact absurd hok (by simp)
  split at hok
  · exact absurd hok (by simp)
  next sig hsig =>
  split at hok
  · exact absurd hok (by simp)
  next sw sh hscale =>
  simp only [Except.ok.injEq] at hok
  simp only [DecodedImage.convert_width, DecodedImage.convert_height] at hscale
  exact ⟨sig, sw, sh, hsig, hscale, hok.symm⟩

/-- The reconciliation never loses a detected source format. -/
theorem reconcile_mode_keeps_format (m f : String) :
    (reconcile_mode m (some f)).2 = some f := by
  unfold reconcile_mode
  split
  · split
    · rfl
    · rfl
  · rfl

/-- With no detected source format the reconciled format defaults to
PNG after the getD, whatever the mode was. -/
theorem reconcile_mode_none_getD (m : String) :
    ((reconcile_mode m none).2).getD "PNG" = "PNG" := by
  unfold reconcile_mode
  split
  · split
    · rfl
    · rfl
  · rfl

/-- The fallback branch of the reconciliation converts to RGB. -/
theorem reconcile_mode_fallback (m : String) (bf : Option String)
    (h1 : m ≠ "RGBA") (h2 : m ≠ "RGB") (h3 : m ≠ "L") :
    (reconcile_mode m bf).1 = "RGB" := by
  unfold reconcile_mode
  rw [if_pos h1, if_neg (by simp [h2, h3])]

/-- C4: on every successful image run the placement is bottom-right
anchored with a margin floor, x = max(margin, baseWidth - resizedWidth
- margin) and y = max(margin, baseHeight - resizedHeight - margin), the
paste using their integer parts, on a composite of the base size. -/
theorem embed_image_placement
    (open_base open_sig : ByteBuf → Option DecodedImage)
    (image_bytes signature_bytes : ByteBuf)
    (margin : ℤ) (mwr mhr : ℚ) (ofmt : Option String)
    (base : DecodedImage) (res : ImageResult)
    (hbase : open_base image_bytes = some base)
    (hok : embed_signature_in_image open_base open_sig image_bytes
        signature_bytes margin mwr mhr ofmt = .ok res) :
    res.x = max (margin : ℚ)
      ((base.width : ℚ) - (res.sig_width : ℚ) - (margin : ℚ)) ∧
    res.y = max (margin : ℚ)
      ((base.height : ℚ) - (res.sig_height : ℚ) - (margin : ℚ)) ∧
    res.paste_pos = (Int.floor res.x, Int.floor res.y) ∧
    res.width = base.width ∧ res.height = base.height := by
  obtain ⟨sig, sw, sh, hsig, hscale, rfl⟩ :=
    embed_image_ok_elim open_base open_sig image_bytes signature_bytes margin
      mwr mhr ofmt base res hbase hok
  exact ⟨rfl, rfl, rfl, rfl, rfl⟩

/-- Fixture: a 200 by 200 RGB base raster detected as PNG. -/
def sample_base_img : DecodedImage := ⟨200, 200, "RGB", some "PNG"⟩

/-- Fixture: a 10 by 10 RGBA signature raster of unknown format. -/
def sample_sig_img : DecodedImage := ⟨10, 10, "RGBA", none⟩

/-- Fixture codec for the RGB base. -/
def open_sample_base : ByteBuf → Option DecodedImage := fun _ => some sample_base_img

/-- Fixture codec for the small signature. -/
def open_sample_sig : ByteBuf → Option DecodedImage := fun _ => some sample_sig_img

/-- C4 witness: the 200 by 200 base with a 10 by 10 signature scales to
40 by 40 and pastes at (148, 148). -/
theorem embed_image_placement_witness :
    ∃ res : ImageResult,
      embed_signature_in_image open_sample_base open_sample_sig [0] [1] 12
        (3/10) (1/5) none = .ok res ∧
      res.x = max (12 : ℚ)
        ((sample_base_img.width : ℚ) - (res.sig_width : ℚ) - (12 : ℚ)) ∧
      res.y = max (12 : ℚ)
        ((sample_base_img.height : ℚ) - (res.sig_height : ℚ) - (12 : ℚ)) ∧
      res.paste_pos = (Int.floor res.x, Int.floor res.y) ∧
      res.sig_width = 40 ∧ res.sig_height = 40 ∧
      res.x = 148 ∧ res.y = 148 := by
  refine ⟨_, rfl, ?_, ?_, ?_, ?_, ?_, ?_, ?_⟩
  · exact (embed_image_placement open_sample_base open_sample_sig [0] [1] 12
      (3/10) (1/5) none sample_base_img _ rfl rfl).1
  · exact (embed_image_placement open_sample_base open_sample_sig [0] [1] 12
      (3/10) (1/5) none sample_base_img _ rfl rfl).2.1
  · exact (embed_image_placement open_sample_base open_sample_sig [0] [1] 12
      (3/10) (1/5) none sample_base_img _ rfl rfl).2.2.1
  all_goals norm_num [sample_base_img, sample_sig_img, min_def, max_def]

/-- C5: the encode format follows the precedence of line 200: a truthy
explicit output format wins; otherwise a detected source format is
used; otherwise PNG; and the JPG synonym normalizes to JPEG. -/
theorem embed_image_format_choice
    (open_base open_sig : ByteBuf → Option DecodedImage)
    (image_bytes signature_bytes : ByteBuf)
    (margin : ℤ) (mwr mhr : ℚ) (ofmt : Option String)
    (base : DecodedImage) (res : ImageResult)
    (hbase : open_base image_bytes = some base)
    (hok : embed_signature_in_image open_base open_sig image_bytes
        signature_bytes margin mwr mhr ofmt = .ok res) :
    (∀ s : String, ofmt = some s → s ≠ "" → res.fmt = normalize_format s) ∧
    (ofmt = none → ∀ f : String, detected_format base = some f →
      res.fmt = normalize_format f) ∧
    (ofmt = none → detected_format base = none → res.fmt = "PNG") ∧
    normalize_format "JPG" = "JPEG" ∧ normalize_format "jpg" = "JPEG" := by
  obtain ⟨sig, sw, sh, hsig, hscale, rfl⟩ :=
    embed_image_ok_elim open_base open_sig image_bytes signature_bytes margin
      mwr mhr ofmt base res hbase hok
  refine ⟨?_, ?_, ?_, by decide, by decide⟩
  · intro s hs hne
    subst hs
    show normalize_format (choose_format (some s) _) = normalize_format s
    rw [choose_format, if_neg hne]
  · intro h0 f hf
    subst h0
    show normalize_format (choose_format none _) = normalize_format f
    rw [hf, reconcile_mode_keeps_format, choose_format]
    rfl
  · intro h0 hf
    subst h0
    show normalize_format (choose_format none _) = "PNG"
    rw [hf, choose_format, reconcile_mode_none_getD]
    decide

/-- C5 witness: requesting jpg on the RGB fixture encodes as JPEG. -/
theorem embed_image_format_choice_witness :
    ∃ res : ImageResult,
      embed_signature_in_image open_sample_base open_sample_sig [0] [1] 12
        (3/10) (1/5) (some "jpg") = .ok res ∧
      res.fmt = normalize_format "jpg" ∧ res.fmt = "JPEG" := by
  refine ⟨_, rfl, ?_, ?_⟩
  · exact (embed_image_format_choice open_sample_base open_sample_sig [0] [1] 12
      (3/10) (1/5) (some "jpg") sample_base_img _ rfl rfl).1 "jpg" rfl (by decide)
  · decide

/-- Fixture: a palette-mode base raster detected as GIF. -/
def exotic_base_img : DecodedImage := ⟨200, 200, "P", some "GIF"⟩

/-- Fixture codec for the palette-mode GIF base. -/
def open_exotic_base : ByteBuf → Option DecodedImage := fun _ => some exotic_base_img

/-- C6 counterexample: on a palette-mode base with detected format GIF
and no requested output format, the run succeeds, the composite is
converted to RGB, yet the encode format stays GIF instead of the
lossless PNG default the claim requires for every such input. -/
theorem embed_image_png_default_counterexample :
    ∃ res : ImageResult,
      embed_signature_in_image open_exotic_base open_sample_sig [0] [1] 12
        (3/10) (1/5) none = .ok res ∧
      exotic_base_img.mode = "P" ∧
      res.mode = "RGB" ∧ res.fmt = "GIF" ∧ ("GIF" : String) ≠ "PNG" := by
  refine ⟨_, rfl, by decide, ?_, ?_, by decide⟩
  · decide
  · decide

/-- C6 amended: when the original mode is neither RGBA nor RGB nor L
the composite is converted to RGB; the output format defaults to PNG
only when no output format was requested and no source format was
detected. -/
theorem embed_image_mode_reconciliation
    (open_base open_sig : ByteBuf → Option DecodedImage)
    (image_bytes signature_bytes : ByteBuf)
    (margin : ℤ) (mwr mhr : ℚ) (ofmt : Option String)
    (base : DecodedImage) (res : ImageResult)
    (hbase : open_base image_bytes = some base)
    (hm1 : base.mode ≠ "RGBA") (hm2 : base.mode ≠ "RGB") (hm3 : base.mode ≠ "L")
    (hok : embed_signature_in_image open_base open_sig image_bytes
        signature_bytes margin mwr mhr ofmt = .ok res) :
    res.mode = "RGB" ∧
    (ofmt = none → detected_format base = none → res.fmt = "PNG") := by
  obtain ⟨sig, sw, sh, hsig, hscale, rfl⟩ :=
    embed_image_ok_elim open_base open_sig image_bytes signature_bytes margin
      mwr mhr ofmt base res hbase hok
  refine ⟨reconcile_mode_fallback base.mode _ hm1 hm2 hm3, ?_⟩
  intro h0 hf
  subst h0
  show normalize_format (choose_format none _) = "PNG"
  rw [hf, choose_format, reconcile_mode_none_getD]
  decide

/-- Fixture: a palette-mode base raster with no detected format. -/
def plain_base_img : DecodedImage := ⟨200, 200, "P", none⟩

/-- Fixture codec for the palette-mode formatless base. -/
def open_plain_base : ByteBuf → Option DecodedImage := fun _ => some plain_base_img

/-- C6 amended witness: a palette-mode base without a detected format
and without a requested format converts to RGB and encodes as PNG. -/
theorem embed_image_mode_reconciliation_witness :
    ∃ res : ImageResult,
      embed_signature_in_image open_plain_base open_sample_sig [0] [1] 12
        (3/10) (1/5) none = .ok res ∧
      res.mode = "RGB" ∧ res.fmt = "PNG" := by
  refine ⟨_, rfl, ?_, ?_⟩
  · exact (embed_image_mode_reconciliation open_plain_base open_sample_sig
      [0] [1] 12 (3/10) (1/5) none plain_base_img _ rfl (by decide) (by decide)
      (by decide) rfl).1
  · exact (embed_image_mode_reconciliation open_plain_base open_sample_sig
      [0] [1] 12 (3/10) (1/5) none plain_base_img _ rfl (by decide) (by decide)
      (by decide) rfl).2 rfl (by decide)
